import Mathlib

/-!
Shallow embedding of `examples/save-hidden-npy-callback/save-hidden-npy.cpp`:
a tensor-capture-and-serialize pipeline that intercepts a named activation
tensor during an inference pass and writes it as a `.npy` array file.

Modelling conventions:
* machine bytes are `Nat` values (each < 256 where produced);
* the strings built by the program are pure ASCII, so a string's byte
  sequence is modelled as its character codes (`String.data.map Char.toNat`)
  and its byte count as its character count;
* C++ exceptions (`std::runtime_error msg`) become `Except String`, carrying
  the exact message the source throws;
* file output is modelled as the list of bytes a successful call writes, in
  order; a file-open failure is an explicit `canOpen : Bool` parameter of the
  encoder (an environmental fact the source only observes via `if (!out)`).
-/

/-- Element-type tag of the engine (`ggml_type` from `ggml.h`).  The source's
switch handles the first eleven constructors; the remaining constructors stand
for the other tags of the engine's enum, all of which fall to `default`. -/
inductive ggml_type where
  | GGML_TYPE_F32
  | GGML_TYPE_F16
  | GGML_TYPE_Q4_0
  | GGML_TYPE_Q4_1
  | GGML_TYPE_Q5_0
  | GGML_TYPE_Q5_1
  | GGML_TYPE_Q8_0
  | GGML_TYPE_I8
  | GGML_TYPE_I16
  | GGML_TYPE_I32
  | GGML_TYPE_I64
  | GGML_TYPE_Q8_1
  | GGML_TYPE_Q2_K
  | GGML_TYPE_Q3_K
  | GGML_TYPE_Q4_K
  | GGML_TYPE_Q5_K
  | GGML_TYPE_Q6_K
  | GGML_TYPE_Q8_K
  | GGML_TYPE_F64
  | GGML_TYPE_BF16
  deriving DecidableEq, Repr

open ggml_type

/-- `ggml_type_to_numpy_descr` (source lines 35-62): maps an element-type tag
to a numpy descriptor string; every tag outside the fixed table throws
`std::runtime_error("Unsupported ggml type")`. -/
def ggml_type_to_numpy_descr : ggml_type → Except String String
  | GGML_TYPE_F32 => .ok ("<f4")
  | GGML_TYPE_F16 => .ok ("<f2")
  | GGML_TYPE_Q4_0 => .ok ("<i1")
  | GGML_TYPE_Q4_1 => .ok ("<i1")
  | GGML_TYPE_Q5_0 => .ok ("<i1")
  | GGML_TYPE_Q5_1 => .ok ("<i1")
  | GGML_TYPE_Q8_0 => .ok ("<i1")
  | GGML_TYPE_I8 => .ok ("<i1")
  | GGML_TYPE_I16 => .ok ("<i2")
  | GGML_TYPE_I32 => .ok ("<i4")
  | GGML_TYPE_I64 => .ok ("<i8")
  | _ => .error ("Unsupported ggml type")

/-- The list of tags the source's switch handles (every other tag falls to the
`default` case). -/
def supportedTypes : List ggml_type :=
  [GGML_TYPE_F32, GGML_TYPE_F16, GGML_TYPE_Q4_0, GGML_TYPE_Q4_1, GGML_TYPE_Q5_0,
   GGML_TYPE_Q5_1, GGML_TYPE_Q8_0, GGML_TYPE_I8, GGML_TYPE_I16, GGML_TYPE_I32,
   GGML_TYPE_I64]

/-- The shape part of the header loop (source lines 75-80): for each index
`i`, emit `", "` first when `i ≠ 0`, then the decimal rendering of
`shape[i]`. -/
def shapeBody (shape : List Int) : String :=
  shape.enum.foldl (fun acc p => (if p.1 = 0 then acc else acc ++ ", ") ++ toString p.2) ""

/-- The unpadded header text built by `save_data_npy` (source lines 69-86):
the dictionary with keys `descr`, `fortran_order`, `shape` in that order,
with a trailing comma inside the shape tuple exactly when the shape has one
entry. -/
def npyHeader (descr : String) (shape : List Int) : String :=
  "\x7b" ++ "\"descr\": \"" ++ descr ++ "\", " ++ "\"fortran_order\": False, " ++
    "\"shape\": (" ++ shapeBody shape ++
    (if shape.length = 1 then (",") else ("")) ++ ")\x7d"

/-- Byte sequence of an ASCII string (all strings this program builds are
ASCII, so character codes coincide with the file's bytes). -/
def strBytes (s : String) : List Nat :=
  s.data.map Char.toNat

/-- The 6 magic bytes `"\x93NUMPY"`. -/
def npyMagic : List Nat := [0x93, 0x4E, 0x55, 0x4D, 0x50, 0x59]

/-- `save_data_npy` (source lines 64-116).  Returns the bytes written to the
destination file on success.  Steps, in source order: build the header text
(the descriptor lookup may throw), pad it with spaces to 64-byte alignment of
`10 + header size`, open the file (may throw `"Cannot open file: " ++ path`),
then write magic, version 1.0, the padded header's size as `uint16`
little-endian, the padded header, and `n_bytes` raw payload bytes verbatim. -/
def save_data_npy (data : List Nat) (n_bytes : Nat) (shape : List Int)
    (type : ggml_type) (path : String) (canOpen : Bool) :
    Except String (List Nat) := do
  let descr ← ggml_type_to_numpy_descr type
  let header := npyHeader descr shape
  let total_len := 6 + 2 + 2 + header.length
  let pad := (64 - total_len % 64) % 64
  let header := header ++ String.mk (List.replicate pad ' ')
  if !canOpen then
    throw ("Cannot open file: " ++ path)
  -- uint16 cast of header.size(), then the two `& 0xFF` bytes, little-endian
  let hdr_len := header.length % 65536
  pure (npyMagic ++ [1, 0] ++ [hdr_len % 256, hdr_len / 256 % 256] ++
        strBytes header ++ data.take n_bytes)

/-- `GGML_MAX_DIMS`: the engine's fixed maximum tensor rank (constant `4` in
`ggml.h`; the spec calls it "the engine's fixed maximum rank"). -/
def GGML_MAX_DIMS : Nat := 4

/-- Modelled from the spec: the engine's tensor descriptor as the hook
observes it (`ggml_tensor` plus the introspection the engine offers: name,
element type, per-dimension sizes up to the fixed maximum rank, raw byte
contents, and the buffer's host-residency flag).  The engine itself is not
under `src/`; `bytes` is the tensor's logical raw byte sequence, the one a
host pointer exposes directly and a device fetch copies out. -/
structure ggml_tensor where
  name : String
  type : ggml_type
  ne : Fin GGML_MAX_DIMS → Int
  bytes : List Nat
  buffer_is_host : Bool

/-- Modelled from the spec: `ggml_nbytes` (engine introspection, not under
`src/`) reports the tensor's raw byte count — the length of its logical byte
sequence. -/
def ggml_nbytes (t : ggml_tensor) : Nat :=
  t.bytes.length

/-- Modelled from the spec: `ggml_backend_buffer_is_host` (engine
introspection, not under `src/`). -/
def ggml_backend_buffer_is_host (t : ggml_tensor) : Bool :=
  t.buffer_is_host

/-- Modelled from the spec: `ggml_backend_tensor_get t buf offset n` (engine
primitive, not under `src/`) synchronously reads `n` bytes of the tensor
starting at `offset`; this function gives the bytes read. -/
def ggml_backend_tensor_get_bytes (t : ggml_tensor) (offset n : Nat) : List Nat :=
  (t.bytes.drop offset).take n

/-- `std::vector<uint8_t>::resize`: keep the first `n` bytes, zero-fill any
growth. -/
def vecResize (v : List Nat) (n : Nat) : List Nat :=
  v.take n ++ List.replicate (n - v.length) 0

/-- Overwrite `buf` starting at `offset` with as much of `src` as fits. -/
def listWriteAt (buf : List Nat) (offset : Nat) (src : List Nat) : List Nat :=
  buf.take offset ++ src.take (buf.length - offset) ++ buf.drop (offset + src.length)

/-- `callback_data` (source lines 28-33): the capture session state threaded
through the hook — staging buffer, current record id, target layer name,
output directory. -/
structure callback_data where
  data : List Nat
  uid : Nat
  target_layer : String
  output_dir : String
  deriving Repr

/-- One file write: destination path and the bytes written. -/
abbrev FileWrite := String × List Nat

/-- The shape vector built by the hook (source lines 139-146): push `ne[i]`
for each `i < GGML_MAX_DIMS`, then substitute `[1]` if the result is empty. -/
def buildShape (t : ggml_tensor) : List Int :=
  let shape := (List.finRange GGML_MAX_DIMS).map t.ne
  if shape.isEmpty then [1] else shape

/-- `ggml_debug` (source lines 118-152): the two-phase capture hook.  In the
ask phase it returns `true` untouched.  In the act phase, a tensor whose name
differs from the target layer is ignored; a matching tensor is staged (device
fetch into the resized staging buffer when not host-resident), shaped, and
encoded to `output_dir/<uid>.npy`.  Returns the hook's boolean, the updated
session state, and the file writes performed; an encoder exception
propagates. -/
def ggml_debug (t : ggml_tensor) (ask : Bool) (cb : callback_data)
    (canOpen : Bool) : Except String (Bool × callback_data × List FileWrite) :=
  if ask then
    pure (true, cb, [])
  else if t.name = cb.target_layer then
    let n_bytes := ggml_nbytes t
    let is_host := ggml_backend_buffer_is_host t
    let cb2 :=
      if !is_host then
        { cb with data := listWriteAt (vecResize cb.data n_bytes) 0
                            (ggml_backend_tensor_get_bytes t 0 n_bytes) }
      else cb
    let data_ptr := if !is_host then cb2.data else t.bytes
    let shape := buildShape t
    let out_path := cb2.output_dir ++ "/" ++ toString cb2.uid ++ ".npy"
    match save_data_npy data_ptr n_bytes shape t.type out_path canOpen with
    | .ok fileBytes => pure (true, cb2, [(out_path, fileBytes)])
    | .error e => .error e
  else
    pure (true, cb, [])

/-- Modelled from the spec: the engine's evaluation of one pass
(`llama_decode` with `cb_eval` registered, not under `src/`) invokes the hook
synchronously and sequentially, once per internal tensor, ask phase then act
phase; an exception escaping the hook escapes the evaluation. -/
def runPassHook (ts : List ggml_tensor) (cb : callback_data) (canOpen : Bool) :
    Except String (callback_data × List FileWrite) :=
  match ts with
  | [] => .ok (cb, [])
  | t :: rest =>
    match ggml_debug t true cb canOpen with
    | .error e => .error e
    | .ok _ =>
      match ggml_debug t false cb canOpen with
      | .error e => .error e
      | .ok (_, cb2, ws) =>
        match runPassHook rest cb2 canOpen with
        | .error e => .error e
        | .ok (cb3, ws2) => .ok (cb3, ws ++ ws2)

/-- `json_entry` (source lines 16-22): one input record. -/
structure json_entry where
  uid : Nat
  question_text : String
  answer_text : String
  model_answer : String
  target : String

/-- Modelled from the spec: the engine collaborators `run_one` consumes
(tokenization with the engine's beginning-of-sequence convention, the tensors
an evaluation of a prompt produces, and the decode status it reports), none
of which are under `src/`. -/
structure EngineOracle where
  tokenize : String → List Nat
  passTensors : String → List ggml_tensor
  decodeOk : String → Bool

/-- `run_one` (source lines 154-169): tokenize the prompt; an empty token
sequence means failure without an evaluation; otherwise evaluate the pass
(running the hook over its tensors) and report the decode status.  Returns
the success flag, the session state after the pass, and the writes. -/
def run_one (eng : EngineOracle) (cb : callback_data) (canOpen : Bool)
    (prompt : String) : Except String (Bool × callback_data × List FileWrite) :=
  let tokens := eng.tokenize prompt
  if tokens.isEmpty then
    .ok (false, cb, [])
  else
    match runPassHook (eng.passTensors prompt) cb canOpen with
    | .error e => .error e
    | .ok (cb2, ws) => .ok (eng.decodeOk prompt, cb2, ws)

/-- The driver loop of `main` (source lines 231-239): for each record in
order, set `cb_data.uid = e.uid`, run one inference pass on
`e.question_text`, log-and-continue on a `false` status.  Returns the final
session state and, per record, its uid, its status, and its file writes.
There is no handler in `main`: an exception from `run_one` propagates out of
the loop. -/
def mainLoop (eng : EngineOracle) (cb : callback_data) (canOpen : Bool) :
    List json_entry → Except String (callback_data × List (Nat × Bool × List FileWrite))
  | [] => .ok (cb, [])
  | e :: rest =>
    match run_one eng { cb with uid := e.uid } canOpen e.question_text with
    | .error e => .error e
    | .ok (ok, cb2, ws) =>
      match mainLoop eng cb2 canOpen rest with
      | .error e => .error e
      | .ok (cb3, results) => .ok (cb3, (e.uid, ok, ws) :: results)

/-! ### Spec-side characterizations and concrete fixtures -/

/-- Comma-space separated concatenation: the separation convention the spec
states for the shape tuple. -/
def commaSep : List String → String
  | [] => ""
  | [s] => s
  | s :: ss => s ++ ", " ++ commaSep ss

/-- Comma-prefixed rendering of the non-initial shape entries (proof-side
normal form of the header loop's accumulator). -/
def commaTail : List Int → String
  | [] => ""
  | x :: xs => ", " ++ toString x ++ commaTail xs

/-- Padding amount for an unpadded header of `n` bytes, as the spec states
it: `(64 - (10 + n) mod 64) mod 64`. -/
def npyPad (n : Nat) : Nat := (64 - (10 + n) % 64) % 64

/-- Fixture: a capture session as `main` creates it (target layer
`"l_out-15"`). -/
def cbFix : callback_data :=
  { data := [], uid := 0, target_layer := "l_out-15", output_dir := "/out" }

/-- Fixture: a host-resident tensor whose name matches the target layer. -/
def tFixHost : ggml_tensor :=
  { name := "l_out-15", type := GGML_TYPE_F32, ne := fun i => (i : Nat) + 1,
    bytes := [10, 20, 30, 40], buffer_is_host := true }

/-- Fixture: the same tensor, device-resident. -/
def tFixDev : ggml_tensor := { tFixHost with buffer_is_host := false }

/-- Fixture: a tensor whose name does not match the target layer. -/
def tFixOther : ggml_tensor := { tFixHost with name := "blk.0.attn_norm" }

/-- Fixture: a matching tensor of a type outside the descriptor table. -/
def tFixBad : ggml_tensor := { tFixHost with type := GGML_TYPE_Q8_1 }

/-- Fixture: input record 1 (tokenizes non-empty). -/
def entry1 : json_entry :=
  { uid := 1, question_text := "hello", answer_text := "", model_answer := "",
    target := "" }

/-- Fixture: input record 2 (empty question text, tokenizes empty). -/
def entry2 : json_entry :=
  { uid := 2, question_text := "", answer_text := "", model_answer := "",
    target := "" }

/-- Fixture: an engine whose passes produce one matching host tensor, whose
tokenizer returns a token exactly for non-empty text, and whose decode always
succeeds. -/
def engFix : EngineOracle :=
  { tokenize := fun s => if s = "" then [] else [7],
    passTensors := fun _ => [tFixHost],
    decodeOk := fun _ => true }

/-- Fixture: the same engine, but its pass produces a matching tensor of an
unsupported element type. -/
def engBad : EngineOracle := { engFix with passTensors := fun _ => [tFixBad] }

/-- Fixture: the array-file image the fixture capture writes (unpadded header
of 63 bytes, padded to 118, for shape `(1, 2, 3, 4)` and four payload
bytes). -/
def npyFileFix : List Nat :=
  npyMagic ++ [1, 0] ++ [118, 0] ++
    strBytes (npyHeader ("<f4") [1, 2, 3, 4] ++ String.mk (List.replicate 55 ' ')) ++
    [10, 20, 30, 40]

/-! ### Header-text lemmas -/

lemma shapeBody_foldl_enumFrom (xs : List Int) :
    ∀ (k : Nat) (acc : String), k ≠ 0 →
      (List.enumFrom k xs).foldl
        (fun acc p => (if p.1 = 0 then acc else acc ++ ", ") ++ toString p.2) acc =
      acc ++ commaTail xs := by
  induction xs with
  | nil => intro k acc _; simp [commaTail]
  | cons x xs ih =>
    intro k acc hk
    rw [List.enumFrom_cons]
    simp only [List.foldl_cons, if_neg hk]
    rw [ih (k + 1) _ (by omega)]
    simp [commaTail, String.append_assoc]

lemma commaSep_map_cons (x : Int) (xs : List Int) :
    commaSep ((x :: xs).map toString) = toString x ++ commaTail xs := by
  induction xs generalizing x with
  | nil => simp [commaSep, commaTail]
  | cons y ys ih =>
    simp only [List.map_cons, commaSep, commaTail]
    rw [← List.map_cons, ih y]
    simp [String.append_assoc]

lemma shapeBody_eq (shape : List Int) :
    shapeBody shape = commaSep (shape.map toString) := by
  cases shape with
  | nil => rfl
  | cons x xs =>
    simp only [shapeBody, List.enum]
    rw [List.enumFrom_cons]
    simp only [List.foldl_cons, if_pos rfl]
    rw [shapeBody_foldl_enumFrom xs 1 _ (by omega), commaSep_map_cons]
    apply String.ext
    simp [String.data_append]

/-- C3: the unpadded header text is the dictionary with exactly the keys
`descr`, `fortran_order`, `shape` in that order; `fortran_order` is the
literal `False`; `shape` is a parenthesized, comma-space-separated list of
the shape's integers, with a trailing comma before the closing parenthesis
exactly when the shape has one dimension. -/
theorem npyHeader_dict (descr : String) (shape : List Int) :
    npyHeader descr shape =
      "\x7b" ++ "\"descr\": \"" ++ descr ++ "\", " ++ "\"fortran_order\": False, " ++
        "\"shape\": (" ++ commaSep (shape.map toString) ++
        (if shape.length = 1 then (",") else ("")) ++ ")\x7d" := by
  rw [npyHeader, shapeBody_eq]

/-- C2: the type-descriptor mapper returns the documented descriptor for each
tag of the fixed table, and fails with the `Unsupported ggml type` error for
every tag outside it. -/
theorem ggml_type_to_numpy_descr_table :
    ggml_type_to_numpy_descr GGML_TYPE_F32 = .ok ("<f4") ∧
    ggml_type_to_numpy_descr GGML_TYPE_F16 = .ok ("<f2") ∧
    (∀ t ∈ [GGML_TYPE_Q4_0, GGML_TYPE_Q4_1, GGML_TYPE_Q5_0, GGML_TYPE_Q5_1,
            GGML_TYPE_Q8_0, GGML_TYPE_I8],
      ggml_type_to_numpy_descr t = .ok ("<i1")) ∧
    ggml_type_to_numpy_descr GGML_TYPE_I16 = .ok ("<i2") ∧
    ggml_type_to_numpy_descr GGML_TYPE_I32 = .ok ("<i4") ∧
    ggml_type_to_numpy_descr GGML_TYPE_I64 = .ok ("<i8") ∧
    (∀ t : ggml_type, t ∉ supportedTypes →
      ggml_type_to_numpy_descr t = .error ("Unsupported ggml type")) := by
  refine ⟨rfl, rfl, ?_, rfl, rfl, rfl, ?_⟩
  · intro t ht
    fin_cases ht <;> rfl
  · intro t ht
    cases t <;> first
      | rfl
      | exact absurd (by decide) ht

/-- C2 witness: a tag outside the table, evaluated concretely. -/
theorem ggml_type_to_numpy_descr_table_witness :
    GGML_TYPE_Q8_1 ∉ supportedTypes ∧
    ggml_type_to_numpy_descr GGML_TYPE_Q8_1 = .error ("Unsupported ggml type") :=
  ⟨by decide,
    ggml_type_to_numpy_descr_table.2.2.2.2.2.2 GGML_TYPE_Q8_1 (by decide)⟩

/-- C1: a successful encoder call writes, in order, the 6 magic bytes, the
version bytes 1 and 0, the padded header's length as unsigned 16-bit
little-endian, the header padded with trailing spaces (no newline) so that
`10 + padded length` is a multiple of 64 with padding amount
`(64 - (10 + unpadded length) mod 64) mod 64`, then exactly `n_bytes` payload
bytes copied verbatim from the input buffer. -/
theorem save_data_npy_layout (data : List Nat) (n_bytes : Nat) (shape : List Int)
    (type : ggml_type) (path : String) (descr : String)
    (hdescr : ggml_type_to_numpy_descr type = .ok descr)
    (hlen : n_bytes ≤ data.length) :
    save_data_npy data n_bytes shape type path true =
      .ok (npyMagic ++ [1, 0] ++
        [((npyHeader descr shape).length + npyPad (npyHeader descr shape).length)
            % 65536 % 256,
         ((npyHeader descr shape).length + npyPad (npyHeader descr shape).length)
            % 65536 / 256 % 256] ++
        strBytes (npyHeader descr shape ++
          String.mk (List.replicate (npyPad (npyHeader descr shape).length) ' ')) ++
        data.take n_bytes) ∧
    (10 + ((npyHeader descr shape).length + npyPad (npyHeader descr shape).length))
        % 64 = 0 ∧
    (data.take n_bytes).length = n_bytes := by
  have hmk : ∀ m : Nat, (String.mk (List.replicate m (' ' : Char))).length = m := by
    intro m; simp [String.length]
  refine ⟨?_, ?_, ?_⟩
  · simp only [save_data_npy, hdescr, Except.bind, npyPad, String.length_append,
      hmk, Bool.not_true, Bool.false_eq_true, if_false]
    rfl
  · simp only [npyPad]; omega
  · simp [List.length_take]; omega

/-- C1 witness: the layout theorem applied to a concrete four-byte `f32`
buffer of shape `(2, 3, 4, 1)`. -/
theorem save_data_npy_layout_witness :
    ggml_type_to_numpy_descr GGML_TYPE_F32 = .ok ("<f4") ∧
    4 ≤ [10, 20, 30, 40].length ∧
    (save_data_npy [10, 20, 30, 40] 4 [2, 3, 4, 1] GGML_TYPE_F32 ("/out/7.npy") true =
      .ok (npyMagic ++ [1, 0] ++
        [((npyHeader ("<f4") [2, 3, 4, 1]).length +
            npyPad (npyHeader ("<f4") [2, 3, 4, 1]).length) % 65536 % 256,
         ((npyHeader ("<f4") [2, 3, 4, 1]).length +
            npyPad (npyHeader ("<f4") [2, 3, 4, 1]).length) % 65536 / 256 % 256] ++
        strBytes (npyHeader ("<f4") [2, 3, 4, 1] ++
          String.mk (List.replicate (npyPad (npyHeader ("<f4") [2, 3, 4, 1]).length) ' ')) ++
        [10, 20, 30, 40].take 4) ∧
     (10 + ((npyHeader ("<f4") [2, 3, 4, 1]).length +
        npyPad (npyHeader ("<f4") [2, 3, 4, 1]).length)) % 64 = 0 ∧
     ([10, 20, 30, 40].take 4).length = 4) :=
  ⟨rfl, by decide,
    save_data_npy_layout [10, 20, 30, 40] 4 [2, 3, 4, 1] GGML_TYPE_F32
      "/out/7.npy" "<f4" rfl (by decide)⟩

/-! ### Staging-buffer lemmas -/

lemma vecResize_length (v : List Nat) (n : Nat) : (vecResize v n).length = n := by
  simp [vecResize, List.length_take]
  omega

lemma listWriteAt_zero_full (buf src : List Nat) (h : src.length = buf.length) :
    listWriteAt buf 0 src = src := by
  simp [listWriteAt, ← h, List.drop_eq_nil_of_le]

lemma staging_eq (t : ggml_tensor) (v : List Nat) :
    listWriteAt (vecResize v (ggml_nbytes t)) 0
      (ggml_backend_tensor_get_bytes t 0 (ggml_nbytes t)) = t.bytes := by
  have hsrc : ggml_backend_tensor_get_bytes t 0 (ggml_nbytes t) = t.bytes := by
    simp [ggml_backend_tensor_get_bytes, ggml_nbytes]
  rw [hsrc, listWriteAt_zero_full]
  rw [vecResize_length, ggml_nbytes]

/-- Normal form of the act phase on a matching tensor: both residency paths
feed the tensor's logical bytes to the encoder at `output_dir/<uid>.npy`; the
device path additionally replaces the staging buffer with those bytes. -/
lemma ggml_debug_act_matched (t : ggml_tensor) (cb : callback_data)
    (canOpen : Bool) (hm : t.name = cb.target_layer) :
    ggml_debug t false cb canOpen =
      match save_data_npy t.bytes (ggml_nbytes t) (buildShape t) t.type
              (cb.output_dir ++ "/" ++ toString cb.uid ++ ".npy") canOpen with
      | .ok bs => .ok (true,
          (if t.buffer_is_host then cb else { cb with data := t.bytes }),
          [(cb.output_dir ++ "/" ++ toString cb.uid ++ ".npy", bs)])
      | .error e => .error e := by
  cases hhost : t.buffer_is_host with
  | true => simp [ggml_debug, hm, hhost, ggml_backend_buffer_is_host, pure, Except.pure]
  | false => simp [ggml_debug, hm, hhost, ggml_backend_buffer_is_host, staging_eq, pure,
      Except.pure]

/-- C6: the act phase on a tensor whose name differs from the target layer
returns `true` immediately, performs no write and no device copy, and leaves
the session state — in particular the staging buffer — unchanged. -/
theorem ggml_debug_nonmatching (t : ggml_tensor) (cb : callback_data)
    (canOpen : Bool) (hm : t.name ≠ cb.target_layer) :
    ggml_debug t false cb canOpen = .ok (true, cb, []) := by
  simp [ggml_debug, hm, pure, Except.pure]

/-- C6 witness: a concrete non-matching tensor against the session fixture. -/
theorem ggml_debug_nonmatching_witness :
    tFixOther.name ≠ cbFix.target_layer ∧
    ggml_debug tFixOther false cbFix true = .ok (true, cbFix, []) :=
  ⟨by decide, ggml_debug_nonmatching tFixOther cbFix true (by decide)⟩

lemma tensor_get_all (t : ggml_tensor) :
    ggml_backend_tensor_get_bytes t 0 (ggml_nbytes t) = t.bytes := by
  simp [ggml_backend_tensor_get_bytes, ggml_nbytes]

/-- C5: on a matching device-resident tensor the act phase resizes the
staging buffer to exactly the tensor's byte length, fills it with the single
synchronous fetch of those bytes, and produces exactly the outcome — same
write, same hook result — the host-resident (zero-copy) path produces on the
same logical bytes; the host path leaves the session state unchanged. -/
theorem ggml_debug_device_refines_host (t : ggml_tensor) (cb : callback_data)
    (canOpen : Bool) (hm : t.name = cb.target_layer)
    (hdev : t.buffer_is_host = false) :
    (∀ ok cb2 ws, ggml_debug t false cb canOpen = .ok (ok, cb2, ws) →
      cb2.data = ggml_backend_tensor_get_bytes t 0 (ggml_nbytes t) ∧
      cb2.data.length = ggml_nbytes t ∧
      ggml_debug { t with buffer_is_host := true } false cb canOpen =
        .ok (ok, cb, ws)) ∧
    (∀ e, ggml_debug t false cb canOpen = .error e →
      ggml_debug { t with buffer_is_host := true } false cb canOpen = .error e) := by
  have hdev2 : ggml_debug t false cb canOpen =
      match save_data_npy t.bytes (ggml_nbytes t) (buildShape t) t.type
              (cb.output_dir ++ "/" ++ toString cb.uid ++ ".npy") canOpen with
      | .ok bs => .ok (true, { cb with data := t.bytes },
          [(cb.output_dir ++ "/" ++ toString cb.uid ++ ".npy", bs)])
      | .error e => .error e := by
    rw [ggml_debug_act_matched t cb canOpen hm, hdev]
    simp
  have hhost2 : ggml_debug { t with buffer_is_host := true } false cb canOpen =
      match save_data_npy t.bytes (ggml_nbytes t) (buildShape t) t.type
              (cb.output_dir ++ "/" ++ toString cb.uid ++ ".npy") canOpen with
      | .ok bs => .ok (true, cb,
          [(cb.output_dir ++ "/" ++ toString cb.uid ++ ".npy", bs)])
      | .error e => .error e := by
    rw [ggml_debug_act_matched { t with buffer_is_host := true } cb canOpen hm]
    simp [buildShape, ggml_nbytes]
  cases hsave : save_data_npy t.bytes (ggml_nbytes t) (buildShape t) t.type
      (cb.output_dir ++ "/" ++ toString cb.uid ++ ".npy") canOpen with
  | ok bs =>
    rw [hsave] at hdev2 hhost2
    refine ⟨?_, ?_⟩
    · intro ok cb2 ws h
      rw [hdev2] at h
      simp only [Except.ok.injEq, Prod.mk.injEq] at h
      obtain ⟨hok, hcb, hws⟩ := h
      refine ⟨?_, ?_, ?_⟩
      · rw [← hcb, tensor_get_all]
      · rw [← hcb]; rfl
      · rw [hhost2, ← hok, ← hws]
    · intro e h
      rw [hdev2] at h
      exact absurd h (by simp)
  | error e =>
    rw [hsave] at hdev2 hhost2
    refine ⟨?_, ?_⟩
    · intro ok cb2 ws h
      rw [hdev2] at h
      exact absurd h (by simp)
    · intro e2 h
      rw [hdev2] at h
      injection h with h
      rw [hhost2, h]

/-- C5 witness: the refinement applied to the concrete device-resident
fixture tensor. -/
theorem ggml_debug_device_refines_host_witness :
    tFixDev.name = cbFix.target_layer ∧
    tFixDev.buffer_is_host = false ∧
    ((∀ ok cb2 ws, ggml_debug tFixDev false cbFix true = .ok (ok, cb2, ws) →
        cb2.data = ggml_backend_tensor_get_bytes tFixDev 0 (ggml_nbytes tFixDev) ∧
        cb2.data.length = ggml_nbytes tFixDev ∧
        ggml_debug { tFixDev with buffer_is_host := true } false cbFix true =
          .ok (ok, cbFix, ws)) ∧
     (∀ e, ggml_debug tFixDev false cbFix true = .error e →
        ggml_debug { tFixDev with buffer_is_host := true } false cbFix true =
          .error e)) :=
  ⟨rfl, rfl, ggml_debug_device_refines_host tFixDev cbFix true rfl rfl⟩

/-- C7: the shape handed to the encoder has one entry per supported
dimension index over the engine's fixed maximum rank, trailing degenerate
dimensions retained (never trimmed); the `[1]` substitution fires only when
the rank loop yields no entries, which at the engine's positive fixed rank is
never. -/
theorem buildShape_full_rank (t : ggml_tensor) :
    ((List.finRange GGML_MAX_DIMS).map t.ne).isEmpty = false ∧
    buildShape t = (List.finRange GGML_MAX_DIMS).map t.ne ∧
    buildShape t = [t.ne (0 : Fin 4), t.ne (1 : Fin 4), t.ne (2 : Fin 4), t.ne (3 : Fin 4)] ∧
    (buildShape t).length = GGML_MAX_DIMS ∧
    ∀ i : Fin GGML_MAX_DIMS, (buildShape t).get? (i : Nat) = some (t.ne i) := by
  have h4 : List.finRange GGML_MAX_DIMS = ([0, 1, 2, 3] : List (Fin 4)) := by decide
  have hb : buildShape t = [t.ne (0 : Fin 4), t.ne (1 : Fin 4), t.ne (2 : Fin 4), t.ne (3 : Fin 4)] := by
    simp [buildShape, h4]
  refine ⟨by simp [h4], by simp [buildShape, h4], hb, by simp [hb, GGML_MAX_DIMS], ?_⟩
  intro i
  rw [hb]
  fin_cases i <;> rfl

/-- C9: the hook's shape vector always has exactly `GGML_MAX_DIMS` entries,
so it is never empty (the `[1]` fallback is unreachable) and never has length
one, hence the encoder's single-dimension trailing-comma branch is not taken
for any hook-produced header. -/
theorem hook_shape_no_trailing_comma (t : ggml_tensor) (descr : String) :
    (buildShape t).length = GGML_MAX_DIMS ∧
    buildShape t ≠ [] ∧
    ((buildShape t).length = 1) = False ∧
    npyHeader descr (buildShape t) =
      "\x7b" ++ "\"descr\": \"" ++ descr ++ "\", " ++ "\"fortran_order\": False, " ++
        "\"shape\": (" ++ commaSep ((buildShape t).map toString) ++ ")\x7d" := by
  have h4 : List.finRange GGML_MAX_DIMS = ([0, 1, 2, 3] : List (Fin 4)) := by decide
  have hlen : (buildShape t).length = GGML_MAX_DIMS := by
    simp [buildShape, h4, GGML_MAX_DIMS]
  have hne1 : ¬(buildShape t).length = 1 := by
    rw [hlen]; decide
  refine ⟨hlen, ?_, by simp [hne1], ?_⟩
  · intro h
    rw [h] at hlen
    exact absurd hlen (by decide)
  · rw [npyHeader, shapeBody_eq, if_neg hne1]
    apply String.ext
    simp [String.data_append]

/-! ### Hook and pass preservation lemmas -/

lemma ggml_debug_ask (t : ggml_tensor) (cb : callback_data) (canOpen : Bool) :
    ggml_debug t true cb canOpen = .ok (true, cb, []) := by
  simp [ggml_debug, pure, Except.pure]

lemma ggml_debug_act_preserves (t : ggml_tensor) (cb : callback_data)
    (canOpen : Bool) (ok : Bool) (cb2 : callback_data) (ws : List FileWrite)
    (h : ggml_debug t false cb canOpen = .ok (ok, cb2, ws)) :
    cb2.uid = cb.uid ∧ cb2.target_layer = cb.target_layer ∧
    cb2.output_dir = cb.output_dir ∧
    ∀ w ∈ ws, w.1 = cb.output_dir ++ "/" ++ toString cb.uid ++ ".npy" := by
  by_cases hm : t.name = cb.target_layer
  · rw [ggml_debug_act_matched t cb canOpen hm] at h
    cases hsave : save_data_npy t.bytes (ggml_nbytes t) (buildShape t) t.type
        (cb.output_dir ++ "/" ++ toString cb.uid ++ ".npy") canOpen with
    | ok bs =>
      rw [hsave] at h
      simp only [Except.ok.injEq, Prod.mk.injEq] at h
      obtain ⟨-, hcb, hws⟩ := h
      cases hhost : t.buffer_is_host with
      | true =>
        rw [hhost] at hcb
        simp only [if_true] at hcb
        rw [← hcb, ← hws]
        refine ⟨rfl, rfl, rfl, ?_⟩
        intro w hw
        simp only [List.mem_singleton] at hw
        rw [hw]
      | false =>
        rw [hhost] at hcb
        simp only [Bool.false_eq_true, if_false] at hcb
        rw [← hcb, ← hws]
        refine ⟨rfl, rfl, rfl, ?_⟩
        intro w hw
        simp only [List.mem_singleton] at hw
        rw [hw]
    | error e =>
      rw [hsave] at h
      exact absurd h (by simp)
  · simp only [ggml_debug, if_neg hm, Bool.false_eq_true, if_false, pure,
      Except.pure, Except.ok.injEq, Prod.mk.injEq] at h
    obtain ⟨-, hcb, hws⟩ := h
    rw [← hcb, ← hws]
    exact ⟨rfl, rfl, rfl, by intro w hw; simp at hw⟩

lemma runPassHook_ok_preserves (ts : List ggml_tensor) (cb : callback_data)
    (canOpen : Bool) (cb2 : callback_data) (ws : List FileWrite)
    (h : runPassHook ts cb canOpen = .ok (cb2, ws)) :
    cb2.uid = cb.uid ∧ cb2.target_layer = cb.target_layer ∧
    cb2.output_dir = cb.output_dir ∧
    ∀ w ∈ ws, w.1 = cb.output_dir ++ "/" ++ toString cb.uid ++ ".npy" := by
  induction ts generalizing cb ws with
  | nil =>
    simp only [runPassHook, Except.ok.injEq, Prod.mk.injEq] at h
    obtain ⟨hcb, hws⟩ := h
    rw [← hcb, ← hws]
    exact ⟨rfl, rfl, rfl, by intro w hw; simp at hw⟩
  | cons t rest ih =>
    rw [runPassHook, ggml_debug_ask] at h
    cases hact : ggml_debug t false cb canOpen with
    | error e => rw [hact] at h; exact absurd h (by simp)
    | ok trip =>
      obtain ⟨b, cbm, wsm⟩ := trip
      rw [hact] at h
      dsimp only at h
      cases hrec : runPassHook rest cbm canOpen with
      | error e => rw [hrec] at h; exact absurd h (by simp)
      | ok pr =>
        obtain ⟨cbf, wsf⟩ := pr
        rw [hrec] at h
        simp only [Except.ok.injEq, Prod.mk.injEq] at h
        obtain ⟨hcb, hws⟩ := h
        subst hcb
        obtain ⟨hu1, ht1, ho1, hw1⟩ := ggml_debug_act_preserves t cb canOpen b cbm wsm hact
        obtain ⟨hu2, ht2, ho2, hw2⟩ := ih cbm wsf hrec
        rw [← hws]
        refine ⟨by rw [hu2, hu1], by rw [ht2, ht1], by rw [ho2, ho1], ?_⟩
        intro w hw
        rcases List.mem_append.mp hw with hw | hw
        · exact hw1 w hw
        · rw [hw2 w hw, ho1, hu1]

lemma run_one_ok_status (eng : EngineOracle) (cb : callback_data)
    (canOpen : Bool) (prompt : String) (ok : Bool) (cb2 : callback_data)
    (ws : List FileWrite)
    (h : run_one eng cb canOpen prompt = .ok (ok, cb2, ws)) :
    ok = (!(eng.tokenize prompt).isEmpty && eng.decodeOk prompt) := by
  simp only [run_one] at h
  cases hemp : (eng.tokenize prompt).isEmpty with
  | true =>
    rw [hemp] at h
    simp only [if_true, Except.ok.injEq, Prod.mk.injEq] at h
    rw [← h.1]
    simp
  | false =>
    rw [hemp] at h
    simp only [Bool.false_eq_true, if_false] at h
    cases hpass : runPassHook (eng.passTensors prompt) cb canOpen with
    | error e => rw [hpass] at h; exact absurd h (by simp)
    | ok pr =>
      obtain ⟨cbp, wsp⟩ := pr
      rw [hpass] at h
      simp only [Except.ok.injEq, Prod.mk.injEq] at h
      rw [← h.1]
      simp

lemma run_one_ok_preserves (eng : EngineOracle) (cb : callback_data)
    (canOpen : Bool) (prompt : String) (ok : Bool) (cb2 : callback_data)
    (ws : List FileWrite)
    (h : run_one eng cb canOpen prompt = .ok (ok, cb2, ws)) :
    cb2.uid = cb.uid ∧ cb2.target_layer = cb.target_layer ∧
    cb2.output_dir = cb.output_dir ∧
    ∀ w ∈ ws, w.1 = cb.output_dir ++ "/" ++ toString cb.uid ++ ".npy" := by
  simp only [run_one] at h
  cases hemp : (eng.tokenize prompt).isEmpty with
  | true =>
    rw [hemp] at h
    simp only [if_true, Except.ok.injEq, Prod.mk.injEq] at h
    obtain ⟨-, hcb, hws⟩ := h
    rw [← hcb, ← hws]
    exact ⟨rfl, rfl, rfl, by intro w hw; simp at hw⟩
  | false =>
    rw [hemp] at h
    simp only [Bool.false_eq_true, if_false] at h
    cases hpass : runPassHook (eng.passTensors prompt) cb canOpen with
    | error e => rw [hpass] at h; exact absurd h (by simp)
    | ok pr =>
      obtain ⟨cbp, wsp⟩ := pr
      rw [hpass] at h
      simp only [Except.ok.injEq, Prod.mk.injEq] at h
      obtain ⟨-, hcb, hws⟩ := h
      subst hcb
      rw [← hws]
      exact runPassHook_ok_preserves (eng.passTensors prompt) cb canOpen _ wsp hpass

/-- C8: when the driver loop runs to completion, it yields exactly one result
per input record, in input order; a record's status is `false` exactly when
its tokenization is empty or the engine reports a decode failure, and such a
record is merely skipped — the remaining records are still processed (no
retries, no abort). -/
theorem mainLoop_processes_all_records (eng : EngineOracle) (cb : callback_data)
    (canOpen : Bool) (entries : List json_entry) (cbEnd : callback_data)
    (results : List (Nat × Bool × List FileWrite))
    (h : mainLoop eng cb canOpen entries = .ok (cbEnd, results)) :
    results.map (fun r => (r.1, r.2.1)) =
      entries.map (fun e =>
        (e.uid, !(eng.tokenize e.question_text).isEmpty &&
                  eng.decodeOk e.question_text)) := by
  induction entries generalizing cb results cbEnd with
  | nil =>
    simp only [mainLoop, Except.ok.injEq, Prod.mk.injEq] at h
    rw [← h.2]
    simp
  | cons e rest ih =>
    rw [mainLoop] at h
    cases hrun : run_one eng { cb with uid := e.uid } canOpen e.question_text with
    | error err => rw [hrun] at h; exact absurd h (by simp)
    | ok trip =>
      obtain ⟨ok, cb2, ws⟩ := trip
      rw [hrun] at h
      dsimp only at h
      cases hrest : mainLoop eng cb2 canOpen rest with
      | error err => rw [hrest] at h; exact absurd h (by simp)
      | ok pr =>
        obtain ⟨cb3, rs⟩ := pr
        rw [hrest] at h
        simp only [Except.ok.injEq, Prod.mk.injEq] at h
        obtain ⟨-, hres⟩ := h
        rw [← hres]
        simp only [List.map_cons]
        rw [run_one_ok_status eng { cb with uid := e.uid } canOpen
              e.question_text ok cb2 ws hrun,
            ih _ _ _ hrest]

set_option maxRecDepth 8192 in
/-- C8 witness: the driver scenario of the spec — record 1 captures and
succeeds, record 2 tokenizes empty and is skipped, and both records appear in
the results. -/
theorem mainLoop_processes_all_records_witness :
    mainLoop engFix cbFix true [entry1, entry2] =
      .ok ({ data := [], uid := 2, target_layer := "l_out-15",
             output_dir := "/out" },
           [(1, true, [("/out/1.npy", npyFileFix)]), (2, false, [])]) ∧
    ([(1, true, [("/out/1.npy", npyFileFix)]),
      ((2 : Nat), false, ([] : List FileWrite))].map (fun r => (r.1, r.2.1)) =
      [entry1, entry2].map (fun e =>
        (e.uid, !(engFix.tokenize e.question_text).isEmpty &&
                  engFix.decodeOk e.question_text))) := by
  have h : mainLoop engFix cbFix true [entry1, entry2] =
      .ok ({ data := [], uid := 2, target_layer := "l_out-15",
             output_dir := "/out" },
           [(1, true, [("/out/1.npy", npyFileFix)]), (2, false, [])]) := by
    rfl
  exact ⟨h, mainLoop_processes_all_records engFix cbFix true [entry1, entry2]
      _ _ h⟩

/-! ### Decimal-rendering injectivity and path lemmas -/

lemma toDigitsCore_eq_digits (fuel : Nat) :
    ∀ (n : Nat) (ds : List Char), 0 < n → n ≤ fuel →
      Nat.toDigitsCore 10 fuel n ds =
        ((Nat.digits 10 n).map Nat.digitChar).reverse ++ ds := by
  induction fuel with
  | zero => intro n ds hn hf; omega
  | succ fuel ih =>
    intro n ds hn hf
    rw [Nat.toDigitsCore]
    have hdig : Nat.digits 10 n = n % 10 :: Nat.digits 10 (n / 10) :=
      Nat.digits_def' (by norm_num) hn
    by_cases hq : n / 10 = 0
    · simp [hq, hdig, Nat.digits_zero]
    · have h1 : 0 < n / 10 := Nat.pos_of_ne_zero hq
      have h2 : n / 10 ≤ fuel := by
        have := Nat.div_lt_self hn (by norm_num : (1 : Nat) < 10)
        omega
      simp only [if_neg hq]
      rw [ih (n / 10) _ h1 h2, hdig]
      simp

lemma toDigits_eq_digits (n : Nat) (hn : 0 < n) :
    Nat.toDigits 10 n = ((Nat.digits 10 n).map Nat.digitChar).reverse := by
  rw [Nat.toDigits, toDigitsCore_eq_digits (n + 1) n [] hn (by omega)]
  simp

lemma digitChar_inj_lt : ∀ a < 10, ∀ b < 10, Nat.digitChar a = Nat.digitChar b → a = b := by
  decide

lemma map_digitChar_inj :
    ∀ (l1 l2 : List Nat), (∀ x ∈ l1, x < 10) → (∀ x ∈ l2, x < 10) →
      l1.map Nat.digitChar = l2.map Nat.digitChar → l1 = l2 := by
  intro l1
  induction l1 with
  | nil => intro l2 _ _ h; cases l2 <;> simp_all
  | cons x xs ih =>
    intro l2 h1 h2 h
    cases l2 with
    | nil => simp at h
    | cons y ys =>
      simp only [List.map_cons, List.cons.injEq] at h
      have hx : x = y := digitChar_inj_lt x (h1 x (by simp)) y (h2 y (by simp)) h.1
      rw [hx, ih ys (fun z hz => h1 z (by simp [hz])) (fun z hz => h2 z (by simp [hz])) h.2]

lemma nat_repr_injective (m n : Nat) (h : Nat.repr m = Nat.repr n) : m = n := by
  rw [Nat.repr, Nat.repr] at h
  have h2 : Nat.toDigits 10 m = Nat.toDigits 10 n := by
    rwa [List.asString_inj] at h
  rcases Nat.eq_zero_or_pos m with hm | hm <;> rcases Nat.eq_zero_or_pos n with hn | hn
  · omega
  · rw [hm] at h2
    rw [toDigits_eq_digits n hn] at h2
    have h3 : (Nat.digits 10 n).map Nat.digitChar = ['0'] := by
      have := congrArg List.reverse h2
      simpa using this.symm
    have h4 : Nat.digits 10 n = [0] := by
      apply map_digitChar_inj
      · intro x hx; exact Nat.digits_lt_base (by norm_num) hx
      · intro x hx; simp at hx; omega
      · simpa using h3
    have := Nat.ofDigits_digits 10 n
    rw [h4] at this
    simp [Nat.ofDigits] at this
    omega
  · rw [hn] at h2
    rw [toDigits_eq_digits m hm] at h2
    have h3 : (Nat.digits 10 m).map Nat.digitChar = ['0'] := by
      have := congrArg List.reverse h2
      simpa using this
    have h4 : Nat.digits 10 m = [0] := by
      apply map_digitChar_inj
      · intro x hx; exact Nat.digits_lt_base (by norm_num) hx
      · intro x hx; simp at hx; omega
      · simpa using h3
    have := Nat.ofDigits_digits 10 m
    rw [h4] at this
    simp [Nat.ofDigits] at this
    omega
  · rw [toDigits_eq_digits m hm, toDigits_eq_digits n hn] at h2
    have h3 := List.reverse_injective h2
    have h4 : Nat.digits 10 m = Nat.digits 10 n := by
      apply map_digitChar_inj
      · intro x hx; exact Nat.digits_lt_base (by norm_num) hx
      · intro x hx; exact Nat.digits_lt_base (by norm_num) hx
      · exact h3
    have hm2 := Nat.ofDigits_digits 10 m
    have hn2 := Nat.ofDigits_digits 10 n
    rw [h4] at hm2
    rw [hn2] at hm2
    exact hm2.symm

lemma nat_toString_injective (m n : Nat) (h : toString m = toString n) : m = n :=
  nat_repr_injective m n h

lemma path_component_inj (dir s1 s2 : String)
    (h : dir ++ "/" ++ s1 ++ ".npy" = dir ++ "/" ++ s2 ++ ".npy") : s1 = s2 := by
  apply String.ext
  have hd := congrArg String.data h
  simp only [String.data_append] at hd
  have h1 := List.append_cancel_right hd
  exact List.append_cancel_left h1

lemma mainLoop_paths_aux (eng : EngineOracle) (cb : callback_data)
    (canOpen : Bool) (entries : List json_entry) (cbEnd : callback_data)
    (results : List (Nat × Bool × List FileWrite))
    (h : mainLoop eng cb canOpen entries = .ok (cbEnd, results)) :
    results.map (fun r => r.1) = entries.map json_entry.uid ∧
    ∀ r ∈ results, ∀ w ∈ r.2.2,
      w.1 = cb.output_dir ++ "/" ++ toString r.1 ++ ".npy" := by
  induction entries generalizing cb results cbEnd with
  | nil =>
    simp only [mainLoop, Except.ok.injEq, Prod.mk.injEq] at h
    rw [← h.2]
    exact ⟨by simp, by intro r hr; simp at hr⟩
  | cons e rest ih =>
    rw [mainLoop] at h
    cases hrun : run_one eng { cb with uid := e.uid } canOpen e.question_text with
    | error err => rw [hrun] at h; exact absurd h (by simp)
    | ok trip =>
      obtain ⟨ok, cb2, ws⟩ := trip
      rw [hrun] at h
      dsimp only at h
      cases hrest : mainLoop eng cb2 canOpen rest with
      | error err => rw [hrest] at h; exact absurd h (by simp)
      | ok pr =>
        obtain ⟨cb3, rs⟩ := pr
        rw [hrest] at h
        simp only [Except.ok.injEq, Prod.mk.injEq] at h
        obtain ⟨-, hres⟩ := h
        obtain ⟨hu, -, ho, hws⟩ := run_one_ok_preserves eng
          { cb with uid := e.uid } canOpen e.question_text ok cb2 ws hrun
        obtain ⟨ih1, ih2⟩ := ih cb2 cb3 rs hrest
        rw [← hres]
        constructor
        · simp only [List.map_cons, ih1]
        · intro r hr w hw
          rcases List.mem_cons.mp hr with hr | hr
          · rw [hr]
            rw [hr] at hw
            exact hws w hw
          · rw [ih2 r hr w hw, ho]

/-- C10: throughout the processing of any record, the session id equals that
record's uid (assigned before the pass, never mutated during it), so every
file written during a record's pass has path
`output_directory/<uid>.npy` — in particular, results carry the records' uids
in order, and two writes land in the same file only when they belong to
results with the same uid. -/
theorem mainLoop_write_paths (eng : EngineOracle) (cb : callback_data)
    (canOpen : Bool) (entries : List json_entry) (cbEnd : callback_data)
    (results : List (Nat × Bool × List FileWrite))
    (h : mainLoop eng cb canOpen entries = .ok (cbEnd, results)) :
    results.map (fun r => r.1) = entries.map json_entry.uid ∧
    (∀ r ∈ results, ∀ w ∈ r.2.2,
      w.1 = cb.output_dir ++ "/" ++ toString r.1 ++ ".npy") ∧
    (∀ r1 ∈ results, ∀ r2 ∈ results, ∀ w1 ∈ r1.2.2, ∀ w2 ∈ r2.2.2,
      w1.1 = w2.1 → r1.1 = r2.1) := by
  obtain ⟨h1, h2⟩ := mainLoop_paths_aux eng cb canOpen entries cbEnd results h
  refine ⟨h1, h2, ?_⟩
  intro r1 hr1 r2 hr2 w1 hw1 w2 hw2 heq
  have e1 := h2 r1 hr1 w1 hw1
  have e2 := h2 r2 hr2 w2 hw2
  rw [e1, e2] at heq
  exact nat_toString_injective r1.1 r2.1
    (path_component_inj cb.output_dir (toString r1.1) (toString r2.1) heq)

set_option maxRecDepth 8192 in
/-- C10 witness: the concrete two-record run — the capture of record 1 lands
in `/out/1.npy`, derived from that record's uid. -/
theorem mainLoop_write_paths_witness :
    mainLoop engFix cbFix true [entry1, entry2] =
      .ok ({ data := [], uid := 2, target_layer := "l_out-15",
             output_dir := "/out" },
           [(1, true, [("/out/1.npy", npyFileFix)]), (2, false, [])]) ∧
    ([(1, true, [("/out/1.npy", npyFileFix)]),
      ((2 : Nat), false, ([] : List FileWrite))].map (fun r => r.1) =
        [entry1, entry2].map json_entry.uid ∧
     (∀ r ∈ [(1, true, [("/out/1.npy", npyFileFix)]),
             ((2 : Nat), false, ([] : List FileWrite))], ∀ w ∈ r.2.2,
        w.1 = cbFix.output_dir ++ "/" ++ toString r.1 ++ ".npy") ∧
     (∀ r1 ∈ [(1, true, [("/out/1.npy", npyFileFix)]),
              ((2 : Nat), false, ([] : List FileWrite))],
      ∀ r2 ∈ [(1, true, [("/out/1.npy", npyFileFix)]),
              ((2 : Nat), false, ([] : List FileWrite))],
      ∀ w1 ∈ r1.2.2, ∀ w2 ∈ r2.2.2, w1.1 = w2.1 → r1.1 = r2.1)) := by
  have h : mainLoop engFix cbFix true [entry1, entry2] =
      .ok ({ data := [], uid := 2, target_layer := "l_out-15",
             output_dir := "/out" },
           [(1, true, [("/out/1.npy", npyFileFix)]), (2, false, [])]) := by
    rfl
  exact ⟨h, mainLoop_write_paths engFix cbFix true [entry1, entry2] _ _ h⟩

/-- C4 counterexample: with a capture failure (unsupported element type) in
record 1's pass, the driver loop does not catch the error and does not
continue to record 2 — the whole run evaluates to that error. -/
theorem driver_catches_capture_error_cex :
    mainLoop engBad cbFix true [entry1, entry2] =
      .error ("Unsupported ggml type") := by
  rfl

/-- C4 (amended): a failure inside the write step of a matching capture
propagates synchronously out of the hook, out of the engine's evaluation
(`run_one` fails with the same error), and out of the driver loop, which has
no handler: the error is not caught by the driver, and the remaining records
are not processed. -/
theorem capture_error_aborts_remaining_records (eng : EngineOracle)
    (cb : callback_data) (canOpen : Bool) (e : json_entry)
    (rest : List json_entry) (t : ggml_tensor) (ts : List ggml_tensor)
    (err : String)
    (htok : (eng.tokenize e.question_text).isEmpty = false)
    (hts : eng.passTensors e.question_text = t :: ts)
    (hhook : ggml_debug t false { cb with uid := e.uid } canOpen = .error err) :
    run_one eng { cb with uid := e.uid } canOpen e.question_text = .error err ∧
    mainLoop eng cb canOpen (e :: rest) = .error err := by
  have hrun : run_one eng { cb with uid := e.uid } canOpen e.question_text =
      .error err := by
    simp only [run_one, htok, Bool.false_eq_true, if_false, hts, runPassHook,
      ggml_debug_ask, hhook]
  exact ⟨hrun, by rw [mainLoop, hrun]⟩

/-- C4 witness: the amended propagation applied to the concrete failing
scenario of the counterexample. -/
theorem capture_error_aborts_remaining_records_witness :
    (engBad.tokenize entry1.question_text).isEmpty = false ∧
    engBad.passTensors entry1.question_text = [tFixBad] ∧
    ggml_debug tFixBad false { cbFix with uid := entry1.uid } true =
      .error ("Unsupported ggml type") ∧
    (run_one engBad { cbFix with uid := entry1.uid } true entry1.question_text =
        .error ("Unsupported ggml type") ∧
     mainLoop engBad cbFix true [entry1, entry2] =
        .error ("Unsupported ggml type")) := by
  have h1 : (engBad.tokenize entry1.question_text).isEmpty = false := by rfl
  have h2 : engBad.passTensors entry1.question_text = [tFixBad] := by rfl
  have h3 : ggml_debug tFixBad false { cbFix with uid := entry1.uid } true =
      .error ("Unsupported ggml type") := by rfl
  have h4 := capture_error_aborts_remaining_records engBad cbFix true entry1
    [entry2] tFixBad [] "Unsupported ggml type" h1 h2 h3
  exact ⟨h1, h2, h3, h4⟩
